import Mathlib

/-!
# devrewards-platform — staking core, shallow embedding

Shallow embedding of the Anchor program in `programs/devrewards-platform/src/`:
the constants and APY tier resolver (`constants.rs`), the account state
(`state.rs`), the error codes (`error.rs`), and the `stake`, `unstake` and
`transfer` instruction handlers (`instructions/stake.rs`,
`instructions/unstake.rs`, `instructions/transfer_tokens.rs`).

Machine integers: Rust `u64` values are `Nat` with explicit `% 2^64`
wrapping wherever the source performs unchecked arithmetic (the default
release-profile semantics); `checked_add` / `checked_sub` return `Option`.
Rust `i64` values are `Int`; unchecked `i64` subtraction wraps through
`wrapI64` and the `as u64` cast is `i64_as_u64`.

A failed Solana transaction is rolled back by the runtime, so a handler
returning an error has no persisted effect; accordingly the handlers return
`Except`, with the whole post-state only in the `ok` branch, and the
system-level `applyOp` keeps the pre-state on error.
-/

namespace DevRewards

/-! ## Machine arithmetic -/

/-- `2^64`, the modulus of Rust `u64` arithmetic. -/
def U64_MOD : Nat := 18446744073709551616

/-- Unchecked Rust `u64` arithmetic wraps modulo `2^64` (release profile). -/
def wrap64 (n : Nat) : Nat := n % U64_MOD

/-- Rust `u64::checked_add`. -/
def checked_add (a b : Nat) : Option Nat :=
  if a + b < U64_MOD then some (a + b) else none

/-- Rust `u64::checked_sub`. -/
def checked_sub (a b : Nat) : Option Nat :=
  if b ≤ a then some (a - b) else none

/-- The value `x` lies in the `i64` range. -/
def inI64 (x : Int) : Prop := -(2 ^ 63) ≤ x ∧ x < 2 ^ 63

instance (x : Int) : Decidable (inI64 x) := by unfold inI64; infer_instance

/-- Wrapping of an integer into the `i64` range (two's complement). -/
def wrapI64 (x : Int) : Int := (x + 2 ^ 63) % 2 ^ 64 - 2 ^ 63

/-- The Rust cast `x as u64` on an `i64` value `x`. -/
def i64_as_u64 (x : Int) : Nat := (x % (18446744073709551616 : Int)).toNat

/-! ## `constants.rs` -/

-- Time thresholds (in seconds)
def SECONDS_IN_SEVEN_DAYS : Int := 604800
def SECONDS_IN_THIRTY_DAYS : Int := 2592000
def SECONDS_IN_NINETY_DAYS : Int := 7776000

-- APY tiers
def TIER_1_APY_NUMERATOR : Nat := 5
def TIER_1_APY_DENOMINATOR : Nat := 100
def TIER_2_APY_NUMERATOR : Nat := 10
def TIER_2_APY_DENOMINATOR : Nat := 100
def TIER_3_APY_NUMERATOR : Nat := 20
def TIER_3_APY_DENOMINATOR : Nat := 100

def SECONDS_PER_YEAR : Nat := 31536000

def MIN_LOCK_DURATION : Int := 604800
def MAX_LOCK_DURATION : Int := 315360000

def MIN_STAKE_AMOUNT : Nat := 1000000000
def MAX_STAKE_AMOUNT : Nat := 100000000000000

/-- `constants.rs::get_apy_for_duration`: returns `(numerator, denominator)`
based on lock duration. -/
def get_apy_for_duration (lock_duration : Int) : Nat × Nat :=
  if lock_duration ≥ SECONDS_IN_NINETY_DAYS then
    (TIER_3_APY_NUMERATOR, TIER_3_APY_DENOMINATOR) -- 20%
  else if lock_duration ≥ SECONDS_IN_THIRTY_DAYS then
    (TIER_2_APY_NUMERATOR, TIER_2_APY_DENOMINATOR) -- 10%
  else
    (TIER_1_APY_NUMERATOR, TIER_1_APY_DENOMINATOR) -- 5%

/-! ## `error.rs` -/

/-- `error.rs::ErrorCode`. -/
inductive ErrorCode where
  | ClaimTooSoon
  | AmountTooSmall
  | AmountTooLarge
  | InsufficientBalance
  | MintMismatch
  | StillLocked
  | InsufficientVaultBalance
  | DurationTooShort
  | DurationTooLong
  | ArithmeticOverflow
  | NameTooLong
  | SymbolTooLong
  | UriTooLong
  | NameEmpty
  | SymbolEmpty
  | UriEmpty
  | InvalidUriFormat
deriving DecidableEq

/-! ## `state.rs` -/

/-- `state.rs::StakeAccount`. Pubkeys are modelled as `Nat` identifiers. -/
structure StakeAccount where
  user : Nat
  staked_amount : Nat
  staked_at : Int
  lock_duration : Int
  stake_index : Nat
  bump : Nat
deriving DecidableEq

/-- `state.rs::StakeCounter`. -/
structure StakeCounter where
  stake_count : Nat
  bump : Nat
deriving DecidableEq

/-- `state.rs::GlobalStats`. -/
structure GlobalStats where
  total_staked : Nat
  total_stakes : Nat
  total_rewards_paid : Nat
  bump : Nat
deriving DecidableEq

/-! ## `instructions/unstake.rs` handler

The reward computation (`unstake.rs` lines 83–91) is factored into named
functions matching the handler's let-bound variables; note that it uses
plain (unchecked, hence wrapping) `u64` multiplication and addition, unlike
the global-stats updates below which use `checked_sub`/`checked_add`. -/

/-- `unstake.rs:83-84`:
`let (apy_numerator, apy_denominator) = get_apy_for_duration(lock_duration);`
`let amount_with_apy = (staked_amount * apy_numerator) / apy_denominator;` -/
def amount_with_apy (staked_amount : Nat) (lock_duration : Int) : Nat :=
  wrap64 (staked_amount * (get_apy_for_duration lock_duration).1)
    / (get_apy_for_duration lock_duration).2

/-- `unstake.rs:89`: `let rewards = (amount_with_apy * lock_duration as u64) / SECONDS_PER_YEAR;` -/
def rewards_of (staked_amount : Nat) (lock_duration : Int) : Nat :=
  wrap64 (amount_with_apy staked_amount lock_duration * i64_as_u64 lock_duration)
    / SECONDS_PER_YEAR

/-- `unstake.rs:91`: `let total_amount = staked_amount + rewards;` -/
def total_amount_of (staked_amount : Nat) (lock_duration : Int) : Nat :=
  wrap64 (staked_amount + rewards_of staked_amount lock_duration)

/-- Result of a successful `unstake`: the computed amounts and the post-state
of the vault and global stats (the position account itself is closed). -/
structure UnstakeOutcome where
  rewards : Nat
  total_amount : Nat
  vault_amount : Nat
  global_stats : GlobalStats
deriving DecidableEq

/-- `unstake.rs::handler`, the state transition on the accounts it touches.
`vault_amount` is `ctx.accounts.vault.amount`, `current_time` is
`Clock::get()?.unix_timestamp`. -/
def unstake_handler (stake_account : StakeAccount) (vault_amount : Nat)
    (global_stats : GlobalStats) (current_time : Int) :
    Except ErrorCode UnstakeOutcome :=
  let time_elapsed := wrapI64 (current_time - stake_account.staked_at)
  -- require!(time_elapsed >= stake_account.lock_duration, StillLocked)
  if time_elapsed < stake_account.lock_duration then .error .StillLocked
  else
    let staked_amount := stake_account.staked_amount
    let lock_duration := stake_account.lock_duration
    let rewards := rewards_of staked_amount lock_duration
    let total_amount := total_amount_of staked_amount lock_duration
    -- require!(vault.amount >= total_amount, InsufficientVaultBalance)
    if vault_amount < total_amount then .error .InsufficientVaultBalance
    else
      -- token::transfer vault → user of total_amount, then stats updates
      match checked_sub global_stats.total_staked staked_amount with
      | none => .error .ArithmeticOverflow
      | some ts =>
        match checked_add global_stats.total_rewards_paid rewards with
        | none => .error .ArithmeticOverflow
        | some trp =>
          .ok { rewards := rewards
                total_amount := total_amount
                vault_amount := vault_amount - total_amount
                global_stats := { global_stats with
                                  total_staked := ts
                                  total_rewards_paid := trp } }

/-! ## `instructions/stake.rs` handler -/

/-- Result of a successful `stake`. -/
structure StakeOutcome where
  stake_account : StakeAccount
  counter : StakeCounter
  global_stats : GlobalStats
  user_balance : Nat
  vault_amount : Nat
deriving DecidableEq

/-- `stake.rs::handler`. `user_balance` is `user_token_account.amount`;
`stake_bump`/`counter_bump` stand for the runtime-provided `ctx.bumps`. -/
def stake_handler (user : Nat) (amount : Nat) (lock_duration : Int)
    (user_balance vault_amount : Nat) (counter : StakeCounter)
    (global_stats : GlobalStats) (current_time : Int)
    (stake_bump counter_bump : Nat) : Except ErrorCode StakeOutcome :=
  if amount < MIN_STAKE_AMOUNT then .error .AmountTooSmall
  else if amount > MAX_STAKE_AMOUNT then .error .AmountTooLarge
  else if lock_duration < MIN_LOCK_DURATION then .error .DurationTooShort
  else if lock_duration > MAX_LOCK_DURATION then .error .DurationTooLong
  else if user_balance < amount then .error .InsufficientBalance
  else
    -- token::transfer user → vault of amount, then the account writes
    let stake_account : StakeAccount :=
      { user := user
        staked_amount := amount
        staked_at := current_time
        lock_duration := lock_duration
        stake_index := counter.stake_count
        bump := stake_bump }
    match checked_add global_stats.total_staked amount with
    | none => .error .ArithmeticOverflow
    | some ts =>
      match checked_add global_stats.total_stakes 1 with
      | none => .error .ArithmeticOverflow
      | some tc =>
        match checked_add counter.stake_count 1 with
        | none => .error .ArithmeticOverflow
        | some cc =>
          .ok { stake_account := stake_account
                counter := { stake_count := cc
                             bump := if counter.bump = 0 then counter_bump
                                     else counter.bump }
                global_stats := { global_stats with
                                  total_staked := ts
                                  total_stakes := tc }
                user_balance := user_balance - amount
                vault_amount := vault_amount + amount }

/-! ## `instructions/transfer_tokens.rs` handler -/

def MIN_TRANSFER : Nat := 1000000000
def MAX_TRANSFER : Nat := 10000000000000

/-- `transfer_tokens.rs::handler`. `transfer_result` is the `Result` value
produced by the `token::transfer(cpi_context, amount)` call; the source
drops it (`transfer_tokens.rs:45` ends without `?`), which this embedding
mirrors by never inspecting `transfer_result` after the requires pass. -/
def transfer_tokens_handler (amount from_amount : Nat) (from_mint to_mint : Nat)
    (transfer_result : Except ErrorCode Unit) : Except ErrorCode Unit :=
  if amount < MIN_TRANSFER then .error .AmountTooSmall
  else if amount > MAX_TRANSFER then .error .AmountTooLarge
  else if from_amount < amount then .error .InsufficientBalance
  else if from_mint ≠ to_mint then .error .MintMismatch
  else
    -- token::transfer(cpi_context, amount);   <- result discarded
    let _ := transfer_result
    .ok ()

/-! ## System-level model

The on-chain state touched by the staking core: the set of open stake
position accounts (PDA seeds `["stake", user, index]`), the per-user
counters (`["stake-counter", user]`), the global stats singleton, the vault
token account and the users' token accounts. A transaction that fails is
rolled back by the runtime, so `applyOp` keeps the pre-state on error. -/

/-- Errors of a system-level operation: a typed program error, or an Anchor
account-resolution failure (`init` on an existing PDA, lookup of a
non-existing PDA / `has_one` mismatch). -/
inductive SysError where
  | program (e : ErrorCode)
  | accountInUse
  | accountNotFound
deriving DecidableEq

structure SysState where
  positions : List StakeAccount
  counters : Nat → StakeCounter
  global_stats : GlobalStats
  vault : Nat
  balances : Nat → Nat

/-- PDA key match for the position account of `(u, i)`; `has_one = user`
is subsumed by the seed match on `user`. -/
def posKey (u i : Nat) (p : StakeAccount) : Bool :=
  p.user == u && p.stake_index == i

/-- The `stake` instruction: Anchor fails with account-in-use if the
position PDA for `(user, counter.stake_count)` already exists (`init`),
then the handler runs on the resolved accounts. -/
def sys_stake (s : SysState) (u : Nat) (amount : Nat) (lock_duration : Int)
    (now : Int) (sb cb : Nat) : Except SysError SysState :=
  if s.positions.any (posKey u (s.counters u).stake_count) then
    .error .accountInUse
  else
    match stake_handler u amount lock_duration (s.balances u) s.vault
        (s.counters u) s.global_stats now sb cb with
    | .error e => .error (.program e)
    | .ok out =>
      .ok { positions := out.stake_account :: s.positions
            counters := fun u' => if u' = u then out.counter else s.counters u'
            global_stats := out.global_stats
            vault := out.vault_amount
            balances := fun u' => if u' = u then out.user_balance
                                  else s.balances u' }

/-- The `unstake` instruction: Anchor resolves the position PDA for
`(user, stake_count)` (failing if absent), the handler runs, and on success
the position account is closed (`close = user`) and the transferred tokens
land in the user's token account. -/
def sys_unstake (s : SysState) (u : Nat) (stake_count : Nat) (now : Int) :
    Except SysError SysState :=
  match s.positions.find? (posKey u stake_count) with
  | none => .error .accountNotFound
  | some stake_account =>
    match unstake_handler stake_account s.vault s.global_stats now with
    | .error e => .error (.program e)
    | .ok out =>
      .ok { positions := s.positions.eraseP (posKey u stake_count)
            counters := s.counters
            global_stats := out.global_stats
            vault := out.vault_amount
            balances := fun u' => if u' = u then s.balances u + out.total_amount
                                  else s.balances u' }

/-- A staking-core operation with its caller-or-runtime-supplied inputs. -/
inductive Op where
  | stake (u : Nat) (amount : Nat) (lock_duration : Int) (now : Int) (sb cb : Nat)
  | unstake (u : Nat) (stake_count : Nat) (now : Int)

/-- Transaction semantics: a failing operation is rolled back, leaving the
state unchanged. -/
def applyOp (s : SysState) : Op → SysState
  | .stake u a d t sb cb =>
    match sys_stake s u a d t sb cb with
    | .ok s' => s'
    | .error _ => s
  | .unstake u i t =>
    match sys_unstake s u i t with
    | .ok s' => s'
    | .error _ => s

def run (s : SysState) (ops : List Op) : SysState := ops.foldl applyOp s

/-- State right after `initialize`: no positions, all counters zero
(Anchor zero-initializes fresh accounts), zeroed global stats, and
arbitrary initial token balances. -/
def initState (balances : Nat → Nat) (vault : Nat) : SysState :=
  { positions := []
    counters := fun _ => { stake_count := 0, bump := 0 }
    global_stats := { total_staked := 0, total_stakes := 0
                      total_rewards_paid := 0, bump := 0 }
    vault := vault
    balances := balances }

/-- Sum of the principal of a list of open positions. -/
def sumStaked (l : List StakeAccount) : Nat :=
  (l.map StakeAccount.staked_amount).sum

/-! ## Concrete inputs used in the evaluations below -/

/-- A position with the largest principal and longest lock duration that
`stake` accepts (both bounds inclusive). -/
def maxPosition : StakeAccount :=
  { user := 1, staked_amount := 100000000000000, staked_at := 0
    lock_duration := 315360000, stake_index := 0, bump := 0 }

/-- A position with principal 10,000 tokens and the longest accepted lock
duration. -/
def bigPosition : StakeAccount :=
  { user := 2, staked_amount := 10000000000000, staked_at := 0
    lock_duration := 315360000, stake_index := 0, bump := 0 }

/-- An initial system state where every user holds 1,000 tokens. -/
def initEx : SysState := initState (fun _ => 1000000000000) 0

/-! ## Arithmetic lemmas -/

theorem wrapI64_eq_of_inI64 {x : Int} (h : inI64 x) : wrapI64 x = x := by
  obtain ⟨h1, h2⟩ := h
  unfold wrapI64
  rw [Int.emod_eq_of_lt (by omega) (by omega)]
  omega

theorem i64_as_u64_eq_toNat {x : Int} (h0 : 0 ≤ x) (h : x < 2 ^ 63) :
    i64_as_u64 x = x.toNat := by
  unfold i64_as_u64
  rw [Int.emod_eq_of_lt h0 (by omega)]

theorem wrap64_eq_of_lt {n : Nat} (h : n < U64_MOD) : wrap64 n = n :=
  Nat.mod_eq_of_lt h

/-! ## Inversion lemmas for the handlers and system operations -/

theorem checked_add_some {a b c : Nat} (h : checked_add a b = some c) :
    c = a + b ∧ a + b < U64_MOD := by
  unfold checked_add at h
  split at h
  · exact ⟨(Option.some.injEq .. ▸ h).symm, by assumption⟩
  · exact absurd h (by simp)

theorem checked_sub_some {a b c : Nat} (h : checked_sub a b = some c) :
    c = a - b ∧ b ≤ a := by
  unfold checked_sub at h
  split at h
  · exact ⟨(Option.some.injEq .. ▸ h).symm, by assumption⟩
  · exact absurd h (by simp)

theorem unstake_handler_still_locked (sa : StakeAccount) (vault : Nat)
    (gs : GlobalStats) (now : Int)
    (h : wrapI64 (now - sa.staked_at) < sa.lock_duration) :
    unstake_handler sa vault gs now = .error .StillLocked := by
  unfold unstake_handler
  rw [if_pos h]

theorem unstake_handler_ok_inv {sa : StakeAccount} {vault : Nat}
    {gs : GlobalStats} {t : Int} {out : UnstakeOutcome}
    (h : unstake_handler sa vault gs t = .ok out) :
    sa.lock_duration ≤ wrapI64 (t - sa.staked_at) ∧
    total_amount_of sa.staked_amount sa.lock_duration ≤ vault ∧
    sa.staked_amount ≤ gs.total_staked ∧
    gs.total_rewards_paid + rewards_of sa.staked_amount sa.lock_duration
      < U64_MOD ∧
    out = { rewards := rewards_of sa.staked_amount sa.lock_duration
            total_amount := total_amount_of sa.staked_amount sa.lock_duration
            vault_amount :=
              vault - total_amount_of sa.staked_amount sa.lock_duration
            global_stats := { gs with
              total_staked := gs.total_staked - sa.staked_amount
              total_rewards_paid := gs.total_rewards_paid +
                rewards_of sa.staked_amount sa.lock_duration } } := by
  simp only [unstake_handler] at h
  split at h
  · exact absurd h (by simp)
  · split at h
    · exact absurd h (by simp)
    · cases hsub : checked_sub gs.total_staked sa.staked_amount with
      | none => simp only [hsub] at h; exact absurd h (by simp)
      | some ts =>
        simp only [hsub] at h
        cases hadd : checked_add gs.total_rewards_paid
            (rewards_of sa.staked_amount sa.lock_duration) with
        | none => simp only [hadd] at h; exact absurd h (by simp)
        | some trp =>
          simp only [hadd] at h
          obtain ⟨hts, hle⟩ := checked_sub_some hsub
          obtain ⟨htrp, hlt⟩ := checked_add_some hadd
          injection h with h
          subst hts htrp
          refine ⟨by omega, by omega, hle, hlt, h.symm⟩

theorem stake_handler_ok_inv {u amount : Nat} {d : Int} {ub v : Nat}
    {ctr : StakeCounter} {gs : GlobalStats} {t : Int} {sb cb : Nat}
    {out : StakeOutcome}
    (h : stake_handler u amount d ub v ctr gs t sb cb = .ok out) :
    MIN_STAKE_AMOUNT ≤ amount ∧ amount ≤ MAX_STAKE_AMOUNT ∧
    MIN_LOCK_DURATION ≤ d ∧ d ≤ MAX_LOCK_DURATION ∧ amount ≤ ub ∧
    gs.total_staked + amount < U64_MOD ∧ gs.total_stakes + 1 < U64_MOD ∧
    ctr.stake_count + 1 < U64_MOD ∧
    out = { stake_account := { user := u, staked_amount := amount
                               staked_at := t, lock_duration := d
                               stake_index := ctr.stake_count, bump := sb }
            counter := { stake_count := ctr.stake_count + 1
                         bump := if ctr.bump = 0 then cb else ctr.bump }
            global_stats := { gs with
              total_staked := gs.total_staked + amount
              total_stakes := gs.total_stakes + 1 }
            user_balance := ub - amount
            vault_amount := v + amount } := by
  simp only [stake_handler] at h
  split at h
  · exact absurd h (by simp)
  · split at h
    · exact absurd h (by simp)
    · split at h
      · exact absurd h (by simp)
      · split at h
        · exact absurd h (by simp)
        · split at h
          · exact absurd h (by simp)
          · cases hts : checked_add gs.total_staked amount with
            | none => simp only [hts] at h; exact absurd h (by simp)
            | some ts =>
              simp only [hts] at h
              cases htc : checked_add gs.total_stakes 1 with
              | none => simp only [htc] at h; exact absurd h (by simp)
              | some tc =>
                simp only [htc] at h
                cases hcc : checked_add ctr.stake_count 1 with
                | none => simp only [hcc] at h; exact absurd h (by simp)
                | some cc =>
                  simp only [hcc] at h
                  obtain ⟨h1, h2⟩ := checked_add_some hts
                  obtain ⟨h3, h4⟩ := checked_add_some htc
                  obtain ⟨h5, h6⟩ := checked_add_some hcc
                  injection h with h
                  subst h1 h3 h5
                  refine ⟨by omega, by omega, by omega, by omega, by omega,
                    h2, h4, h6, h.symm⟩

theorem sys_stake_ok_inv {s : SysState} {u a : Nat} {d t : Int} {sb cb : Nat}
    {s' : SysState} (h : sys_stake s u a d t sb cb = .ok s') :
    ∃ out, stake_handler u a d (s.balances u) s.vault (s.counters u)
        s.global_stats t sb cb = .ok out ∧
      s' = { positions := out.stake_account :: s.positions
             counters := fun u' => if u' = u then out.counter
                                   else s.counters u'
             global_stats := out.global_stats
             vault := out.vault_amount
             balances := fun u' => if u' = u then out.user_balance
                                   else s.balances u' } := by
  unfold sys_stake at h
  split at h
  · exact absurd h (by simp)
  · split at h
    · exact absurd h (by simp)
    · next out hout =>
      injection h with h
      exact ⟨out, hout, h.symm⟩

theorem sys_unstake_ok_inv {s : SysState} {u i : Nat} {t : Int}
    {s' : SysState} (h : sys_unstake s u i t = .ok s') :
    ∃ sa out, s.positions.find? (posKey u i) = some sa ∧
      unstake_handler sa s.vault s.global_stats t = .ok out ∧
      s' = { positions := s.positions.eraseP (posKey u i)
             counters := s.counters
             global_stats := out.global_stats
             vault := out.vault_amount
             balances := fun u' => if u' = u then s.balances u + out.total_amount
                                   else s.balances u' } := by
  unfold sys_unstake at h
  split at h
  · exact absurd h (by simp)
  · next sa hsa =>
    split at h
    · exact absurd h (by simp)
    · next out hout =>
      injection h with h
      exact ⟨sa, out, hsa, hout, h.symm⟩

/-! ## List lemmas -/

theorem sumStaked_cons (a : StakeAccount) (l : List StakeAccount) :
    sumStaked (a :: l) = a.staked_amount + sumStaked l := by
  simp [sumStaked]

theorem sumStaked_eraseP {l : List StakeAccount} {pr : StakeAccount → Bool}
    {x : StakeAccount} (h : l.find? pr = some x) :
    sumStaked l = x.staked_amount + sumStaked (l.eraseP pr) := by
  induction l with
  | nil => simp at h
  | cons a l ih =>
    cases hpa : pr a with
    | true =>
      rw [List.find?_cons_of_pos _ hpa] at h
      injection h with h
      subst h
      rw [List.eraseP_cons_of_pos hpa, sumStaked_cons]
    | false =>
      rw [List.find?_cons_of_neg _ (by simp [hpa])] at h
      rw [List.eraseP_cons_of_neg (by simp [hpa]), sumStaked_cons,
        sumStaked_cons, ih h]
      omega

/-! ## Aggregate invariants (claim C4 machinery) -/

/-- `total_staked` equals the sum of the principal of all open positions. -/
def StakedInv (s : SysState) : Prop :=
  s.global_stats.total_staked = sumStaked s.positions

theorem applyOp_stakedInv {s : SysState} (hs : StakedInv s) (op : Op) :
    StakedInv (applyOp s op) := by
  cases op with
  | stake u a d t sb cb =>
    unfold applyOp
    cases hst : sys_stake s u a d t sb cb with
    | error e => simpa only [hst] using hs
    | ok s' =>
      simp only [hst]
      obtain ⟨out, hout, rfl⟩ := sys_stake_ok_inv hst
      obtain ⟨_, _, _, _, _, _, _, _, rfl⟩ := stake_handler_ok_inv hout
      unfold StakedInv at hs ⊢
      simp only [sumStaked_cons]
      omega
  | unstake u i t =>
    unfold applyOp
    cases hst : sys_unstake s u i t with
    | error e => simpa only [hst] using hs
    | ok s' =>
      simp only [hst]
      obtain ⟨sa, out, hsa, hout, rfl⟩ := sys_unstake_ok_inv hst
      obtain ⟨_, _, hle, _, rfl⟩ := unstake_handler_ok_inv hout
      unfold StakedInv at hs ⊢
      have hsum := sumStaked_eraseP hsa
      simp only []
      omega

theorem run_stakedInv {s : SysState} (hs : StakedInv s) (ops : List Op) :
    StakedInv (run s ops) := by
  induction ops generalizing s with
  | nil => exact hs
  | cons op ops ih => exact ih (applyOp_stakedInv hs op)

theorem applyOp_stats_mono (s : SysState) (op : Op) :
    s.global_stats.total_stakes ≤ (applyOp s op).global_stats.total_stakes ∧
    s.global_stats.total_rewards_paid
      ≤ (applyOp s op).global_stats.total_rewards_paid := by
  cases op with
  | stake u a d t sb cb =>
    unfold applyOp
    cases hst : sys_stake s u a d t sb cb with
    | error e => simp only [hst]; exact ⟨le_refl _, le_refl _⟩
    | ok s' =>
      simp only [hst]
      obtain ⟨out, hout, rfl⟩ := sys_stake_ok_inv hst
      obtain ⟨_, _, _, _, _, _, _, _, rfl⟩ := stake_handler_ok_inv hout
      exact ⟨by simp, by simp⟩
  | unstake u i t =>
    unfold applyOp
    cases hst : sys_unstake s u i t with
    | error e => simp only [hst]; exact ⟨le_refl _, le_refl _⟩
    | ok s' =>
      simp only [hst]
      obtain ⟨sa, out, hsa, hout, rfl⟩ := sys_unstake_ok_inv hst
      obtain ⟨_, _, _, _, rfl⟩ := unstake_handler_ok_inv hout
      exact ⟨by simp, by simp⟩

theorem run_stats_mono (s : SysState) (ops : List Op) :
    s.global_stats.total_stakes ≤ (run s ops).global_stats.total_stakes ∧
    s.global_stats.total_rewards_paid
      ≤ (run s ops).global_stats.total_rewards_paid := by
  induction ops generalizing s with
  | nil => exact ⟨le_refl _, le_refl _⟩
  | cons op ops ih =>
    obtain ⟨h1, h2⟩ := applyOp_stats_mono s op
    obtain ⟨h3, h4⟩ := ih (applyOp s op)
    exact ⟨le_trans h1 h3, le_trans h2 h4⟩

/-! ## Position-index invariants (claim C9 machinery) -/

/-- Every open position's index is below its owner's counter, and the
`(owner, index)` keys of open positions are pairwise distinct. -/
def IndexInv (s : SysState) : Prop :=
  (∀ p ∈ s.positions, p.stake_index < (s.counters p.user).stake_count) ∧
  s.positions.Pairwise
    (fun p q => p.user ≠ q.user ∨ p.stake_index ≠ q.stake_index)

theorem applyOp_indexInv {s : SysState} (hs : IndexInv s) (op : Op) :
    IndexInv (applyOp s op) := by
  obtain ⟨hidx, hpw⟩ := hs
  cases op with
  | stake u a d t sb cb =>
    unfold applyOp
    cases hst : sys_stake s u a d t sb cb with
    | error e => simp only [hst]; exact ⟨hidx, hpw⟩
    | ok s' =>
      simp only [hst]
      obtain ⟨out, hout, rfl⟩ := sys_stake_ok_inv hst
      obtain ⟨_, _, _, _, _, _, _, _, rfl⟩ := stake_handler_ok_inv hout
      constructor
      · intro p hp
        simp only [List.mem_cons] at hp
        rcases hp with rfl | hp
        · simp
        · have hlt := hidx p hp
          by_cases hu : p.user = u
          · simp only [hu, if_pos rfl]
            rw [hu] at hlt
            simp
            omega
          · simp only [if_neg hu]
            exact hlt
      · refine List.Pairwise.cons ?_ hpw
        intro q hq
        by_cases hu : q.user = u
        · right
          have hlt := hidx q hq
          rw [hu] at hlt
          simp
          omega
        · left
          simp
          exact fun e => hu e.symm
  | unstake u i t =>
    unfold applyOp
    cases hst : sys_unstake s u i t with
    | error e => simp only [hst]; exact ⟨hidx, hpw⟩
    | ok s' =>
      simp only [hst]
      obtain ⟨sa, out, hsa, hout, rfl⟩ := sys_unstake_ok_inv hst
      constructor
      · intro p hp
        exact hidx p (List.Sublist.mem hp (List.eraseP_sublist _))
      · exact hpw.sublist (List.eraseP_sublist _)

theorem run_indexInv {s : SysState} (hs : IndexInv s) (ops : List Op) :
    IndexInv (run s ops) := by
  induction ops generalizing s with
  | nil => exact hs
  | cons op ops ih => exact ih (applyOp_indexInv hs op)

theorem applyOp_counter_mono (s : SysState) (op : Op) (u : Nat) :
    (s.counters u).stake_count ≤ ((applyOp s op).counters u).stake_count := by
  cases op with
  | stake u' a d t sb cb =>
    unfold applyOp
    cases hst : sys_stake s u' a d t sb cb with
    | error e => simp only [hst]; exact le_refl _
    | ok s' =>
      simp only [hst]
      obtain ⟨out, hout, rfl⟩ := sys_stake_ok_inv hst
      obtain ⟨_, _, _, _, _, _, _, _, rfl⟩ := stake_handler_ok_inv hout
      by_cases hu : u = u'
      · subst hu
        simp
      · simp [hu]
  | unstake u' i t =>
    unfold applyOp
    cases hst : sys_unstake s u' i t with
    | error e => simp only [hst]; exact le_refl _
    | ok s' =>
      simp only [hst]
      obtain ⟨sa, out, hsa, hout, rfl⟩ := sys_unstake_ok_inv hst
      exact le_refl _

theorem applyOp_stake_eq_of_handler_error {s : SysState} {u a : Nat}
    {d t : Int} {sb cb : Nat} {e : ErrorCode}
    (h : stake_handler u a d (s.balances u) s.vault (s.counters u)
      s.global_stats t sb cb = .error e) :
    applyOp s (.stake u a d t sb cb) = s := by
  have hsys : ∃ e', sys_stake s u a d t sb cb = .error e' := by
    by_cases hc : s.positions.any (posKey u (s.counters u).stake_count) = true
    · exact ⟨.accountInUse, by unfold sys_stake; rw [if_pos hc]⟩
    · exact ⟨.program e, by unfold sys_stake; rw [if_neg hc]; simp only [h]⟩
  obtain ⟨e', he'⟩ := hsys
  show (match sys_stake s u a d t sb cb with
        | .ok s' => s' | .error _ => s) = s
  rw [he']

theorem applyOp_unstake_eq_of_error {s : SysState} {u i : Nat} {t : Int}
    {e : SysError} (h : sys_unstake s u i t = .error e) :
    applyOp s (.unstake u i t) = s := by
  unfold applyOp
  simp only [h]

/-! ## The claims -/

/-- C3: the APY tier resolver maps any lock duration ≥ 7,776,000 s to
20/100, any duration in [2,592,000, 7,776,000) to 10/100, and any duration
in [604,800, 2,592,000) to 5/100; the four boundary durations resolve as
stated (lower tier boundaries inclusive). -/
theorem apy_tier_resolution :
    (∀ d : Int,
      (7776000 ≤ d → get_apy_for_duration d = (20, 100)) ∧
      (2592000 ≤ d ∧ d < 7776000 → get_apy_for_duration d = (10, 100)) ∧
      (604800 ≤ d ∧ d < 2592000 → get_apy_for_duration d = (5, 100))) ∧
    get_apy_for_duration 2592000 = (10, 100) ∧
    get_apy_for_duration 2591999 = (5, 100) ∧
    get_apy_for_duration 7776000 = (20, 100) ∧
    get_apy_for_duration 7775999 = (10, 100) := by
  refine ⟨fun d => ⟨fun h => ?_, fun h => ?_, fun h => ?_⟩,
    by decide, by decide, by decide, by decide⟩
  · unfold get_apy_for_duration
    rw [if_pos (show d ≥ SECONDS_IN_NINETY_DAYS from h)]
    rfl
  · unfold get_apy_for_duration
    rw [if_neg (show ¬d ≥ SECONDS_IN_NINETY_DAYS by
          simp only [SECONDS_IN_NINETY_DAYS]; omega),
        if_pos (show d ≥ SECONDS_IN_THIRTY_DAYS by
          simp only [SECONDS_IN_THIRTY_DAYS]; omega)]
    rfl
  · unfold get_apy_for_duration
    rw [if_neg (show ¬d ≥ SECONDS_IN_NINETY_DAYS by
          simp only [SECONDS_IN_NINETY_DAYS]; omega),
        if_neg (show ¬d ≥ SECONDS_IN_THIRTY_DAYS by
          simp only [SECONDS_IN_THIRTY_DAYS]; omega)]
    rfl

/-- Witness for C3 at concrete durations in each tier. -/
theorem apy_tier_resolution_witness :
    get_apy_for_duration 100000000 = (20, 100) ∧
    get_apy_for_duration 5000000 = (10, 100) ∧
    get_apy_for_duration 1000000 = (5, 100) :=
  ⟨(apy_tier_resolution.1 100000000).1 (by decide),
   (apy_tier_resolution.1 5000000).2.1 (by decide),
   (apy_tier_resolution.1 1000000).2.2 (by decide)⟩

/-- C7: the amounts computed by `unstake` depend only on the position's
stored `staked_amount` and `lock_duration`: at any two unstake times at or
after maturity the handler produces identical results (same reward, same
total withdrawn), independent of the elapsed time. -/
theorem reward_time_independent :
    ∀ (sa : StakeAccount) (vault : Nat) (gs : GlobalStats) (t1 t2 : Int),
      sa.lock_duration ≤ wrapI64 (t1 - sa.staked_at) →
      sa.lock_duration ≤ wrapI64 (t2 - sa.staked_at) →
      unstake_handler sa vault gs t1 = unstake_handler sa vault gs t2 := by
  intro sa vault gs t1 t2 h1 h2
  simp only [unstake_handler]
  rw [if_neg (not_lt.2 h1), if_neg (not_lt.2 h2)]

/-- Witness for C7: unstaking at maturity and 115 days later pay the same. -/
theorem reward_time_independent_witness :
    unstake_handler ⟨1, 1000000000, 0, 604800, 0, 0⟩ 2000000000
        ⟨1000000000, 1, 0, 0⟩ 604800
      = unstake_handler ⟨1, 1000000000, 0, 604800, 0, 0⟩ 2000000000
        ⟨1000000000, 1, 0, 0⟩ 9999999 :=
  reward_time_independent ⟨1, 1000000000, 0, 604800, 0, 0⟩ 2000000000
    ⟨1000000000, 1, 0, 0⟩ 604800 9999999 (by decide) (by decide)

/-- C8: when the vault balance is below the owed `principal + reward` of a
matured position, `unstake` fails with `InsufficientVaultBalance` (checked
before the transfer), and the failing operation leaves the position list,
the pool balance and the global aggregates unchanged. -/
theorem unstake_insufficient_vault :
    (∀ (sa : StakeAccount) (vault : Nat) (gs : GlobalStats) (now : Int),
      sa.lock_duration ≤ wrapI64 (now - sa.staked_at) →
      vault < total_amount_of sa.staked_amount sa.lock_duration →
      unstake_handler sa vault gs now = .error .InsufficientVaultBalance) ∧
    (∀ s u i t sa, s.positions.find? (posKey u i) = some sa →
      sa.lock_duration ≤ wrapI64 (t - sa.staked_at) →
      s.vault < total_amount_of sa.staked_amount sa.lock_duration →
      sys_unstake s u i t = .error (.program .InsufficientVaultBalance) ∧
      applyOp s (.unstake u i t) = s) := by
  have hbase : ∀ (sa : StakeAccount) (vault : Nat) (gs : GlobalStats) (now : Int),
      sa.lock_duration ≤ wrapI64 (now - sa.staked_at) →
      vault < total_amount_of sa.staked_amount sa.lock_duration →
      unstake_handler sa vault gs now = .error .InsufficientVaultBalance := by
    intro sa vault gs now h1 h2
    simp only [unstake_handler]
    rw [if_neg (not_lt.2 h1), if_pos h2]
  refine ⟨hbase, fun s u i t sa hsa h1 h2 => ?_⟩
  have hsys : sys_unstake s u i t = .error (.program .InsufficientVaultBalance) := by
    unfold sys_unstake
    simp only [hsa, hbase sa s.vault s.global_stats t h1 h2]
  exact ⟨hsys, applyOp_unstake_eq_of_error hsys⟩

/-- Witness for C8 at a matured 1-token position with an empty vault. -/
theorem unstake_insufficient_vault_witness :
    unstake_handler ⟨1, 1000000000, 0, 604800, 0, 0⟩ 5 ⟨1000000000, 1, 0, 0⟩
        604800 = .error .InsufficientVaultBalance :=
  unstake_insufficient_vault.1 ⟨1, 1000000000, 0, 604800, 0, 0⟩ 5
    ⟨1000000000, 1, 0, 0⟩ 604800 (by decide) (by decide)

/-- C5: unstaking a position strictly before its `lock_duration` has
elapsed fails with `StillLocked` and changes nothing; in particular a stake
followed by an unstake attempt before `duration` seconds elapse fails with
`StillLocked`. -/
theorem unstake_still_locked :
    (∀ (sa : StakeAccount) (vault : Nat) (gs : GlobalStats) (now : Int),
      inI64 (now - sa.staked_at) → now - sa.staked_at < sa.lock_duration →
      unstake_handler sa vault gs now = .error .StillLocked) ∧
    (∀ s u i t sa, s.positions.find? (posKey u i) = some sa →
      inI64 (t - sa.staked_at) → t - sa.staked_at < sa.lock_duration →
      sys_unstake s u i t = .error (.program .StillLocked) ∧
      applyOp s (.unstake u i t) = s) ∧
    (∀ s u a (d : Int) t sb cb s' t', sys_stake s u a d t sb cb = .ok s' →
      inI64 (t' - t) → t' - t < d →
      sys_unstake s' u (s.counters u).stake_count t'
        = .error (.program .StillLocked) ∧
      applyOp s' (.unstake u (s.counters u).stake_count t') = s') := by
  have hbase : ∀ (sa : StakeAccount) (vault : Nat) (gs : GlobalStats) (now : Int),
      inI64 (now - sa.staked_at) → now - sa.staked_at < sa.lock_duration →
      unstake_handler sa vault gs now = .error .StillLocked := by
    intro sa vault gs now hin hlt
    exact unstake_handler_still_locked sa vault gs now
      (by rw [wrapI64_eq_of_inI64 hin]; exact hlt)
  have hsys : ∀ s u i t sa, s.positions.find? (posKey u i) = some sa →
      inI64 (t - sa.staked_at) → t - sa.staked_at < sa.lock_duration →
      sys_unstake s u i t = .error (.program .StillLocked) := by
    intro s u i t sa hsa hin hlt
    unfold sys_unstake
    simp only [hsa, hbase sa s.vault s.global_stats t hin hlt]
  refine ⟨hbase,
    fun s u i t sa hsa hin hlt =>
      ⟨hsys s u i t sa hsa hin hlt,
       applyOp_unstake_eq_of_error (hsys s u i t sa hsa hin hlt)⟩,
    ?_⟩
  intro s u a d t sb cb s' t' hstake hin hlt
  obtain ⟨out, hout, hs'⟩ := sys_stake_ok_inv hstake
  obtain ⟨_, _, _, _, _, _, _, _, hout'⟩ := stake_handler_ok_inv hout
  have hpos : s'.positions.find? (posKey u (s.counters u).stake_count)
      = some { user := u, staked_amount := a, staked_at := t
               lock_duration := d
               stake_index := (s.counters u).stake_count, bump := sb } := by
    rw [hs']
    show (out.stake_account :: s.positions).find? _ = _
    rw [hout']
    exact List.find?_cons_of_pos _ (by simp [posKey])
  have h1 := hsys s' u (s.counters u).stake_count t'
    { user := u, staked_amount := a, staked_at := t, lock_duration := d
      stake_index := (s.counters u).stake_count, bump := sb } hpos hin hlt
  exact ⟨h1, applyOp_unstake_eq_of_error h1⟩

/-- Witness for C5: a 1-token stake for 7 days at time 0 cannot be
unstaked at time 604,799. -/
theorem unstake_still_locked_witness :
    sys_unstake (applyOp initEx (.stake 9 1000000000 604800 0 0 0)) 9
        (initEx.counters 9).stake_count 604799
      = .error (.program .StillLocked) :=
  (unstake_still_locked.2.2 initEx 9 1000000000 604800 0 0 0 _ 604799 rfl
    (by decide) (by decide)).1

/-- C6: `stake` rejects `amount < 1,000,000,000` with `AmountTooSmall`,
`amount > 100,000,000,000,000` with `AmountTooLarge`,
`lock_duration < 604,800` with `DurationTooShort` and
`lock_duration > 315,360,000` with `DurationTooLong` (checks in that
order), and a stake failing validation has no persisted effect. -/
theorem stake_validation :
    ∀ (u amount : Nat) (d : Int) (ub v : Nat) (ctr : StakeCounter)
      (gs : GlobalStats) (t : Int) (sb cb : Nat) (s : SysState),
      (amount < 1000000000 →
        stake_handler u amount d ub v ctr gs t sb cb
          = .error .AmountTooSmall) ∧
      (1000000000 ≤ amount → 100000000000000 < amount →
        stake_handler u amount d ub v ctr gs t sb cb
          = .error .AmountTooLarge) ∧
      (1000000000 ≤ amount → amount ≤ 100000000000000 → d < 604800 →
        stake_handler u amount d ub v ctr gs t sb cb
          = .error .DurationTooShort) ∧
      (1000000000 ≤ amount → amount ≤ 100000000000000 → 604800 ≤ d →
        315360000 < d →
        stake_handler u amount d ub v ctr gs t sb cb
          = .error .DurationTooLong) ∧
      ((amount < 1000000000 ∨ 100000000000000 < amount ∨ d < 604800 ∨
          315360000 < d) →
        applyOp s (.stake u amount d t sb cb) = s) := by
  intro u amount d ub v ctr gs t sb cb s
  have hsmall : ∀ ub' v' ctr' gs', amount < 1000000000 →
      stake_handler u amount d ub' v' ctr' gs' t sb cb
        = .error .AmountTooSmall := by
    intro ub' v' ctr' gs' h
    unfold stake_handler
    rw [if_pos (show amount < MIN_STAKE_AMOUNT from h)]
  have hlarge : ∀ ub' v' ctr' gs', 1000000000 ≤ amount →
      100000000000000 < amount →
      stake_handler u amount d ub' v' ctr' gs' t sb cb
        = .error .AmountTooLarge := by
    intro ub' v' ctr' gs' h1 h2
    unfold stake_handler
    rw [if_neg (show ¬amount < MIN_STAKE_AMOUNT by
          simp only [MIN_STAKE_AMOUNT]; omega),
        if_pos (show amount > MAX_STAKE_AMOUNT by
          simp only [MAX_STAKE_AMOUNT]; omega)]
  have hshort : ∀ ub' v' ctr' gs', 1000000000 ≤ amount →
      amount ≤ 100000000000000 → d < 604800 →
      stake_handler u amount d ub' v' ctr' gs' t sb cb
        = .error .DurationTooShort := by
    intro ub' v' ctr' gs' h1 h2 h3
    unfold stake_handler
    rw [if_neg (show ¬amount < MIN_STAKE_AMOUNT by
          simp only [MIN_STAKE_AMOUNT]; omega),
        if_neg (show ¬amount > MAX_STAKE_AMOUNT by
          simp only [MAX_STAKE_AMOUNT]; omega),
        if_pos (show d < MIN_LOCK_DURATION by
          simp only [MIN_LOCK_DURATION]; omega)]
  have hlong : ∀ ub' v' ctr' gs', 1000000000 ≤ amount →
      amount ≤ 100000000000000 → 604800 ≤ d → 315360000 < d →
      stake_handler u amount d ub' v' ctr' gs' t sb cb
        = .error .DurationTooLong := by
    intro ub' v' ctr' gs' h1 h2 h3 h4
    unfold stake_handler
    rw [if_neg (show ¬amount < MIN_STAKE_AMOUNT by
          simp only [MIN_STAKE_AMOUNT]; omega),
        if_neg (show ¬amount > MAX_STAKE_AMOUNT by
          simp only [MAX_STAKE_AMOUNT]; omega),
        if_neg (show ¬d < MIN_LOCK_DURATION by
          simp only [MIN_LOCK_DURATION]; omega),
        if_pos (show d > MAX_LOCK_DURATION by
          simp only [MAX_LOCK_DURATION]; omega)]
  refine ⟨hsmall ub v ctr gs, hlarge ub v ctr gs, hshort ub v ctr gs,
    hlong ub v ctr gs, fun hcase => ?_⟩
  rcases hcase with h | h | h | h
  · exact applyOp_stake_eq_of_handler_error (hsmall _ _ _ _ h)
  · rcases lt_or_le amount 1000000000 with h' | h'
    · exact applyOp_stake_eq_of_handler_error (hsmall _ _ _ _ h')
    · exact applyOp_stake_eq_of_handler_error (hlarge _ _ _ _ h' h)
  · rcases lt_or_le amount 1000000000 with h' | h'
    · exact applyOp_stake_eq_of_handler_error (hsmall _ _ _ _ h')
    · rcases lt_or_le (100000000000000 : Nat) amount with h'' | h''
      · exact applyOp_stake_eq_of_handler_error (hlarge _ _ _ _ h' h'')
      · exact applyOp_stake_eq_of_handler_error (hshort _ _ _ _ h' h'' h)
  · rcases lt_or_le amount 1000000000 with h' | h'
    · exact applyOp_stake_eq_of_handler_error (hsmall _ _ _ _ h')
    · rcases lt_or_le (100000000000000 : Nat) amount with h'' | h''
      · exact applyOp_stake_eq_of_handler_error (hlarge _ _ _ _ h' h'')
      · rcases lt_or_le d 604800 with h3 | h3
        · exact applyOp_stake_eq_of_handler_error (hshort _ _ _ _ h' h'' h3)
        · exact applyOp_stake_eq_of_handler_error (hlong _ _ _ _ h' h'' h3 h)

/-- Witness for C6 at the four boundary-violating inputs of §8. -/
theorem stake_validation_witness :
    stake_handler 0 999999999 604800 10 0 ⟨0, 0⟩ ⟨0, 0, 0, 0⟩ 0 0 0
      = .error .AmountTooSmall ∧
    stake_handler 0 100000000000001 604800 10 0 ⟨0, 0⟩ ⟨0, 0, 0, 0⟩ 0 0 0
      = .error .AmountTooLarge ∧
    stake_handler 0 1000000000 604799 10 0 ⟨0, 0⟩ ⟨0, 0, 0, 0⟩ 0 0 0
      = .error .DurationTooShort ∧
    stake_handler 0 1000000000 315360001 10 0 ⟨0, 0⟩ ⟨0, 0, 0, 0⟩ 0 0 0
      = .error .DurationTooLong ∧
    applyOp initEx (.stake 0 999999999 604800 0 0 0) = initEx :=
  ⟨(stake_validation 0 999999999 604800 10 0 ⟨0, 0⟩ ⟨0, 0, 0, 0⟩ 0 0 0
      initEx).1 (by decide),
   (stake_validation 0 100000000000001 604800 10 0 ⟨0, 0⟩ ⟨0, 0, 0, 0⟩ 0 0 0
      initEx).2.1 (by decide) (by decide),
   (stake_validation 0 1000000000 604799 10 0 ⟨0, 0⟩ ⟨0, 0, 0, 0⟩ 0 0 0
      initEx).2.2.1 (by decide) (by decide) (by decide),
   (stake_validation 0 1000000000 315360001 10 0 ⟨0, 0⟩ ⟨0, 0, 0, 0⟩ 0 0 0
      initEx).2.2.2.1 (by decide) (by decide) (by decide) (by decide),
   (stake_validation 0 999999999 604800 10 0 ⟨0, 0⟩ ⟨0, 0, 0, 0⟩ 0 0 0
      initEx).2.2.2.2 (Or.inl (by decide))⟩

/-- C10: the peripheral transfer utility returns success regardless of the
outcome of the underlying `token::transfer` call, whose result it discards
(`transfer_tokens.rs:45` has no `?`): with valid arguments and a failing
transfer primitive the handler still reports `Ok`. -/
theorem transfer_result_discarded :
    transfer_tokens_handler 1000000000 5000000000 7 7 (.error .MintMismatch)
      = .ok () ∧
    ∀ r : Except ErrorCode Unit,
      transfer_tokens_handler 1000000000 5000000000 7 7 r = .ok () :=
  ⟨rfl, fun _ => rfl⟩

/-- C1 (code bug): the reward computation of `unstake` is NOT
overflow-checked. For the stored position with the largest principal and
longest lock duration that `stake` itself accepts, the multiplication
`amount_with_apy * lock_duration` exceeds `u64::MAX`; instead of failing
with `ArithmeticOverflow` the handler wraps modulo `2^64` and succeeds,
paying 534,635,681,920 instead of the true 200,000,000,000,000. -/
theorem unstake_reward_arithmetic_unchecked :
    MIN_STAKE_AMOUNT ≤ maxPosition.staked_amount ∧
    maxPosition.staked_amount ≤ MAX_STAKE_AMOUNT ∧
    MIN_LOCK_DURATION ≤ maxPosition.lock_duration ∧
    maxPosition.lock_duration ≤ MAX_LOCK_DURATION ∧
    U64_MOD ≤ amount_with_apy maxPosition.staked_amount
        maxPosition.lock_duration * i64_as_u64 maxPosition.lock_duration ∧
    unstake_handler maxPosition 200000000000000 ⟨100000000000000, 1, 0, 0⟩
        315360000
      = .ok ⟨534635681920, 100534635681920, 99465364318080,
             ⟨0, 1, 534635681920, 0⟩⟩ ∧
    unstake_handler maxPosition 200000000000000 ⟨100000000000000, 1, 0, 0⟩
        315360000
      ≠ .error .ArithmeticOverflow ∧
    rewards_of maxPosition.staked_amount maxPosition.lock_duration
      ≠ amount_with_apy maxPosition.staked_amount maxPosition.lock_duration
        * i64_as_u64 maxPosition.lock_duration / SECONDS_PER_YEAR := by
  have hok : unstake_handler maxPosition 200000000000000
      ⟨100000000000000, 1, 0, 0⟩ 315360000
      = .ok ⟨534635681920, 100534635681920, 99465364318080,
             ⟨0, 1, 534635681920, 0⟩⟩ := rfl
  refine ⟨by decide, by decide, by decide, by decide, by decide, hok,
    ?_, by decide⟩
  rw [hok]
  simp

/-- C2 counterexample: at a stored position with principal 10,000 tokens
and the longest accepted duration, `unstake` succeeds but its reward is not
`floor(floor(amount * num / denom) * duration / 31536000)` (which would be
20,000,000,000,000): the intermediate product wraps modulo `2^64`, paying
111,957,809,927. -/
theorem unstake_reward_formula_cex :
    unstake_handler bigPosition 20000000000000 ⟨10000000000000, 1, 0, 0⟩
        315360000
      = .ok ⟨111957809927, 10111957809927, 9888042190073,
             ⟨0, 1, 111957809927, 0⟩⟩ ∧
    (111957809927 : Nat)
      ≠ bigPosition.staked_amount
        * (get_apy_for_duration bigPosition.lock_duration).1
        / (get_apy_for_duration bigPosition.lock_duration).2
        * bigPosition.lock_duration.toNat / 31536000 :=
  ⟨rfl, by decide⟩

/-- C2 (amended): a successful `unstake` whose intermediate products stay
below `2^64` (true of every position for which `principal * numerator` and
`floor(principal * numerator / denominator) * duration` do not overflow)
pays exactly `floor(floor(amount * num / denom) * duration / 31536000)`
for the tier matching the stored `lock_duration`, dividing the
principal-times-rate down before multiplying by the credited seconds. -/
theorem unstake_reward_formula (sa : StakeAccount) (vault : Nat)
    (gs : GlobalStats) (t : Int) (out : UnstakeOutcome)
    (h : unstake_handler sa vault gs t = .ok out)
    (hd0 : 0 ≤ sa.lock_duration) (hd1 : sa.lock_duration < 2 ^ 63)
    (hm1 : sa.staked_amount * (get_apy_for_duration sa.lock_duration).1
      < U64_MOD)
    (hm2 : sa.staked_amount * (get_apy_for_duration sa.lock_duration).1
        / (get_apy_for_duration sa.lock_duration).2
        * sa.lock_duration.toNat < U64_MOD) :
    out.rewards
      = sa.staked_amount * (get_apy_for_duration sa.lock_duration).1
        / (get_apy_for_duration sa.lock_duration).2
        * sa.lock_duration.toNat / 31536000 := by
  obtain ⟨_, _, _, _, rfl⟩ := unstake_handler_ok_inv h
  show rewards_of sa.staked_amount sa.lock_duration = _
  unfold rewards_of amount_with_apy
  rw [wrap64_eq_of_lt hm1, i64_as_u64_eq_toNat hd0 hd1, wrap64_eq_of_lt hm2]
  rfl

/-- Witness for C2 at the worked example of §8: 1 token locked 90 days at
tier 20/100 pays reward 49,315,068. -/
theorem unstake_reward_formula_witness :
    (⟨49315068, 1049315068, 950684932, ⟨0, 1, 49315068, 0⟩⟩ :
        UnstakeOutcome).rewards
      = (1000000000 : Nat) * (get_apy_for_duration 7776000).1
        / (get_apy_for_duration 7776000).2 * (7776000 : Int).toNat
        / 31536000 :=
  unstake_reward_formula ⟨1, 1000000000, 0, 7776000, 0, 0⟩ 2000000000
    ⟨1000000000, 1, 0, 0⟩ 7776000
    ⟨49315068, 1049315068, 950684932, ⟨0, 1, 49315068, 0⟩⟩ rfl
    (by decide) (by decide) (by decide) (by decide)

/-- C4: starting from the initialized state, after any sequence of stake
and unstake operations `total_staked` equals the sum of `staked_amount`
over the open positions; a successful stake adds exactly its amount (and
counts one more stake), a successful unstake subtracts exactly the closed
position's principal (and adds its reward to `total_rewards_paid`), and
`total_stakes` and `total_rewards_paid` never decrease along any run. -/
theorem aggregate_consistency :
    (∀ (bal : Nat → Nat) (v : Nat) (ops : List Op),
      (run (initState bal v) ops).global_stats.total_staked
        = sumStaked (run (initState bal v) ops).positions) ∧
    (∀ s u a d t sb cb s', sys_stake s u a d t sb cb = .ok s' →
      s'.global_stats.total_staked = s.global_stats.total_staked + a ∧
      s'.global_stats.total_stakes = s.global_stats.total_stakes + 1 ∧
      s'.global_stats.total_rewards_paid
        = s.global_stats.total_rewards_paid) ∧
    (∀ s u i t s', sys_unstake s u i t = .ok s' →
      (∃ sa, s.positions.find? (posKey u i) = some sa ∧
        s'.global_stats.total_staked + sa.staked_amount
          = s.global_stats.total_staked ∧
        s'.global_stats.total_rewards_paid
          = s.global_stats.total_rewards_paid
            + rewards_of sa.staked_amount sa.lock_duration) ∧
      s'.global_stats.total_stakes = s.global_stats.total_stakes) ∧
    (∀ s ops,
      s.global_stats.total_stakes ≤ (run s ops).global_stats.total_stakes ∧
      s.global_stats.total_rewards_paid
        ≤ (run s ops).global_stats.total_rewards_paid) := by
  refine ⟨?_, ?_, ?_, run_stats_mono⟩
  · intro bal v ops
    exact run_stakedInv (by simp [StakedInv, initState, sumStaked]) ops
  · intro s u a d t sb cb s' h
    obtain ⟨out, hout, rfl⟩ := sys_stake_ok_inv h
    obtain ⟨_, _, _, _, _, _, _, _, rfl⟩ := stake_handler_ok_inv hout
    exact ⟨rfl, rfl, rfl⟩
  · intro s u i t s' h
    obtain ⟨sa, out, hsa, hout, rfl⟩ := sys_unstake_ok_inv h
    obtain ⟨_, _, hle, _, rfl⟩ := unstake_handler_ok_inv hout
    refine ⟨⟨sa, hsa, ?_, rfl⟩, rfl⟩
    show s.global_stats.total_staked - sa.staked_amount + sa.staked_amount
      = s.global_stats.total_staked
    omega

/-- Witness for C4: one concrete successful 1-token stake from the
initialized state adds exactly its amount to `total_staked`. -/
theorem aggregate_consistency_witness :
    (applyOp initEx (.stake 0 1000000000 604800 100 0 0)).global_stats.total_staked
      = initEx.global_stats.total_staked + 1000000000 ∧
    (applyOp initEx (.stake 0 1000000000 604800 100 0 0)).global_stats.total_stakes
      = initEx.global_stats.total_stakes + 1 ∧
    (applyOp initEx (.stake 0 1000000000 604800 100 0 0)).global_stats.total_rewards_paid
      = initEx.global_stats.total_rewards_paid :=
  aggregate_consistency.2.1 initEx 0 1000000000 604800 100 0 0 _ rfl

/-- C9: every user's counter starts at zero; a successful stake by a user
increments exactly that user's counter by one and appends a position
carrying the pre-increment counter value as its `stake_index`; unstake
never touches any counter; no operation ever decreases a counter; and
along any run from the initialized state the `(owner, index)` keys of open
positions are pairwise distinct, with every open index strictly below its
owner's counter. -/
theorem stake_index_unique :
    (∀ (bal : Nat → Nat) (v u : Nat),
      ((initState bal v).counters u).stake_count = 0) ∧
    (∀ s u a d t sb cb s', sys_stake s u a d t sb cb = .ok s' →
      (s'.counters u).stake_count = (s.counters u).stake_count + 1 ∧
      (∀ u', u' ≠ u → s'.counters u' = s.counters u') ∧
      ∃ p, s'.positions = p :: s.positions ∧ p.user = u ∧
        p.stake_index = (s.counters u).stake_count) ∧
    (∀ s u i t s', sys_unstake s u i t = .ok s' →
      s'.counters = s.counters) ∧
    (∀ s op u,
      (s.counters u).stake_count ≤ ((applyOp s op).counters u).stake_count) ∧
    (∀ (bal : Nat → Nat) (v : Nat) (ops : List Op),
      (run (initState bal v) ops).positions.Pairwise
        (fun p q => p.user ≠ q.user ∨ p.stake_index ≠ q.stake_index) ∧
      ∀ p ∈ (run (initState bal v) ops).positions,
        p.stake_index
          < ((run (initState bal v) ops).counters p.user).stake_count) := by
  refine ⟨fun bal v u => rfl, ?_, ?_, applyOp_counter_mono, ?_⟩
  · intro s u a d t sb cb s' h
    obtain ⟨out, hout, rfl⟩ := sys_stake_ok_inv h
    obtain ⟨_, _, _, _, _, _, _, _, rfl⟩ := stake_handler_ok_inv hout
    exact ⟨by simp, fun u' hne => by simp [hne], _, rfl, rfl, rfl⟩
  · intro s u i t s' h
    obtain ⟨sa, out, hsa, hout, rfl⟩ := sys_unstake_ok_inv h
    rfl
  · intro bal v ops
    have h := run_indexInv
      (s := initState bal v) ⟨by simp [initState], by simp [initState]⟩ ops
    exact ⟨h.2, h.1⟩

/-- Witness for C9: a concrete first stake by user 3 assigns index 0 and
moves that user's counter from 0 to 1. -/
theorem stake_index_unique_witness :
    ((applyOp initEx (.stake 3 2000000000 604800 50 0 0)).counters 3).stake_count
      = (initEx.counters 3).stake_count + 1 :=
  (stake_index_unique.2.1 initEx 3 2000000000 604800 50 0 0 _ rfl).1

end DevRewards
